import Mathlib

/-!
Shallow embedding of the inspection-scheduling core of the auto_arrenge
repository (src/date_calculator.py, src/data_loader.py,
src/inspection_scheduler.py), together with theorems settling the frozen
claims about it.

Modelling conventions:
* datetimes are rational numbers counting days from an epoch chosen so that
  day 0 is a Monday 00:00; `Python`'s `weekday()` of a datetime `t` is then
  `⌊t⌋ % 7` (0 = Monday … 6 = Sunday) and `timedelta.days` of `t - s` is
  `⌊t - s⌋`;
* pandas numeric columns become `List ℚ`, NaN-able scalars become `Option ℚ`;
* Python's stable `list.sort` / `sort_values` is modelled by a stable
  insertion sort;
* the mutable `inspectors_status` list of dicts is threaded explicitly as a
  `List Inspector` value.
-/

/-! ### Date calculator (src/date_calculator.py) -/

/-- Weekday test of `DateCalculator.calculate_inspection_deadline`:
`deadline.weekday() < 5` (Monday–Friday), with day 0 = Monday. -/
def isWeekday (d : ℚ) : Bool := ⌊d⌋ % 7 < 5

/-- Backward distance from day `d` to the nearest strictly earlier weekday;
used only as a termination measure for the deadline walk. -/
def backGap (d : ℚ) : ℕ :=
  if ⌊d⌋ % 7 = 0 then 3 else if ⌊d⌋ % 7 = 6 then 2 else 1

/-- The backward walk of `DateCalculator.calculate_inspection_deadline`
(date_calculator.py lines 37–46): while `remaining_days > 0`, step one
calendar day back and decrement the counter only on Monday–Friday. -/
def deadlineLoop (remaining : ℚ) (deadline : ℚ) : ℚ :=
  if 0 < remaining then
    if isWeekday (deadline - 1) then deadlineLoop (remaining - 1) (deadline - 1)
    else deadlineLoop remaining (deadline - 1)
  else deadline
termination_by 7 * ⌈remaining⌉.toNat + backGap deadline
decreasing_by
  · have h1 : (1:ℤ) ≤ ⌈remaining⌉ := Int.ceil_pos.mpr (by assumption)
    have h2 : ⌈remaining - 1⌉ = ⌈remaining⌉ - 1 := Int.ceil_sub_one remaining
    have h3 : backGap (deadline - 1) ≤ 3 := by
      unfold backGap; split
      · omega
      · split <;> omega
    have h4 : 1 ≤ backGap deadline := by
      unfold backGap; split
      · omega
      · split <;> omega
    omega
  · have hw : ¬ (⌊deadline - 1⌋ % 7 < 5) := by
      simpa [isWeekday] using (by assumption : ¬ isWeekday (deadline - 1) = true)
    have hd : ⌊deadline - 1⌋ = ⌊deadline⌋ - 1 := Int.floor_sub_one deadline
    have hr : ⌊deadline - 1⌋ % 7 = 5 ∨ ⌊deadline - 1⌋ % 7 = 6 := by omega
    unfold backGap
    rw [hd] at hr ⊢
    rcases hr with h | h
    · have : (⌊deadline⌋ - 1) % 7 = 5 := h
      have h6 : ⌊deadline⌋ % 7 = 6 := by omega
      simp [h6, this]
    · have : (⌊deadline⌋ - 1) % 7 = 6 := h
      have h0 : ⌊deadline⌋ % 7 = 0 := by omega
      simp [h0, this]

/-- Embedding of `DateCalculator.calculate_inspection_deadline`
(date_calculator.py lines 24–46): `inspection_days = inspection_hours / 8`
followed by the business-day backward walk. -/
def calculate_inspection_deadline (due_date : ℚ) (inspection_hours : ℚ) : ℚ :=
  deadlineLoop (inspection_hours / 8) due_date

/-- Embedding of `DateCalculator.calculate_urgency_level`
(date_calculator.py lines 48–65): `days_until_deadline` is the floor of the
difference in days, classified into the four urgency tiers. -/
def calculate_urgency_level (base_date : ℚ) (inspection_deadline : ℚ) : ℕ :=
  let days_until_deadline := ⌊inspection_deadline - base_date⌋
  if days_until_deadline ≤ 1 then 1
  else if days_until_deadline ≤ 3 then 2
  else if days_until_deadline ≤ 7 then 3
  else 4

/-! ### Unit normalizer (src/data_loader.py, load_product_master) -/

/-- Stable ascending insertion (helper for the sorted sample used by the
quantile computation). -/
def orderedInsertQ (a : ℚ) : List ℚ → List ℚ
  | [] => [a]
  | b :: l => if a ≤ b then a :: b :: l else b :: orderedInsertQ a l

/-- Stable ascending sort of a rational sample. -/
def sortAscQ : List ℚ → List ℚ
  | [] => []
  | a :: l => orderedInsertQ a (sortAscQ l)

/-- Linear-interpolation quantile, as computed by pandas
`Series.quantile(p)` (default `interpolation='linear'`) and
`Series.median() = quantile(0.5)`. -/
def percentileLinear (xs : List ℚ) (p : ℚ) : ℚ :=
  match sortAscQ xs with
  | [] => 0
  | x :: _ =>
    let sorted := sortAscQ xs
    let n := sorted.length
    let pos := p * ((n : ℚ) - 1)
    let lo := sorted.getD ⌊pos⌋.toNat x
    let hi := sorted.getD (⌊pos⌋.toNat + 1) lo
    lo + (pos - (⌊pos⌋ : ℚ)) * (hi - lo)

/-- The four unit classifications of the inspection-time normalizer. -/
inductive TimeUnit where
  | excel
  | minutes
  | hours
  | seconds
deriving DecidableEq, Repr

/-- Auto-detection branch of `DataLoader.load_product_master`
(data_loader.py lines 252–269): over `s_pos = s[s >= 0]`,
max ≤ 1.5 → excel-day fraction; else 95th pct ≤ 100 and median ≤ 60 →
minutes; else 95th pct ≤ 1.0 and median ≤ 0.5 → hours; else seconds.
An empty positive sample leaves every guard false (the `None` checks),
falling through to seconds. -/
def autoDetectUnit (s : List ℚ) : TimeUnit :=
  let s_pos := s.filter (fun x => decide (0 ≤ x))
  match s_pos.max? with
  | none => TimeUnit.seconds
  | some max_v =>
    let q95 := percentileLinear s_pos (95 / 100)
    let med := percentileLinear s_pos (1 / 2)
    if max_v ≤ 3 / 2 then TimeUnit.excel
    else if q95 ≤ 100 ∧ med ≤ 60 then TimeUnit.minutes
    else if q95 ≤ 1 ∧ med ≤ 1 / 2 then TimeUnit.hours
    else TimeUnit.seconds

/-- Unknown-forced-unit fallback branch of `DataLoader.load_product_master`
(data_loader.py lines 238–251): max ≤ 1.5 → excel; else 95th pct ≤ 24 and
median ≤ 8 → hours; else 95th pct ≤ 600 → minutes; else seconds. -/
def fallbackDetectUnit (s : List ℚ) : TimeUnit :=
  let s_pos := s.filter (fun x => decide (0 ≤ x))
  match s_pos.max? with
  | none => TimeUnit.seconds
  | some max_v =>
    let q95 := percentileLinear s_pos (95 / 100)
    let med := percentileLinear s_pos (1 / 2)
    if max_v ≤ 3 / 2 then TimeUnit.excel
    else if q95 ≤ 24 ∧ med ≤ 8 then TimeUnit.hours
    else if q95 ≤ 600 then TimeUnit.minutes
    else TimeUnit.seconds

/-- Conversion applied to the `検査時間` column for each classification:
excel ×24, minutes ÷60, hours unchanged, seconds ÷3600. -/
def applyUnit (u : TimeUnit) (s : List ℚ) : List ℚ :=
  match u with
  | TimeUnit.excel => s.map (fun x => x * 24)
  | TimeUnit.minutes => s.map (fun x => x / 60)
  | TimeUnit.hours => s
  | TimeUnit.seconds => s.map (fun x => x / 3600)

/-- Normalization of the sample when no forced unit is configured. -/
def normalizeAuto (s : List ℚ) : List ℚ := applyUnit (autoDetectUnit s) s

/-- Normalization of the sample when an unrecognized forced unit is
configured (the warning-and-fallback path). -/
def normalizeFallback (s : List ℚ) : List ℚ := applyUnit (fallbackDetectUnit s) s

/-! ### Basic schedule (InspectionScheduler._calculate_basic_schedule) -/

/-- One enriched shortage row entering `_calculate_basic_schedule`:
`納期` (due date, NaT-able), `不足数` (shortage quantity after numeric
coercion, NaN-able) and `検査時間` (per-piece inspection hours, NaN-able). -/
structure ScheduleRow where
  due : Option ℚ
  shortage : Option ℚ
  insp_time : Option ℚ
deriving Repr

/-- One output row of `_calculate_basic_schedule`. -/
structure ScheduledRow where
  insp_time : ℚ
  quantity : ℚ
  total_time : ℚ
  deadline : Option ℚ
  urgency : ℕ
  days_until : ℤ
deriving Repr

/-- Row transformation of `InspectionScheduler._calculate_basic_schedule`
(inspection_scheduler.py lines 166–213): inspection time `fillna(2.0)`,
quantity = `|不足数|` with NaN→0, total = quantity × time, deadline computed
only for a non-null due date, null deadline → urgency 4 and days 999. -/
def basicScheduleRow (base_date : ℚ) (r : ScheduleRow) : ScheduledRow :=
  let t := r.insp_time.getD 2
  let q := |r.shortage.getD 0|
  let total := q * t
  let deadline := r.due.map (fun d => calculate_inspection_deadline d total)
  { insp_time := t
    quantity := q
    total_time := total
    deadline := deadline
    urgency := match deadline with
      | some dl => calculate_urgency_level base_date dl
      | none => 4
    days_until := match deadline with
      | some dl => ⌊dl - base_date⌋
      | none => 999 }

/-- Embedding of `InspectionScheduler._calculate_basic_schedule` over a
batch of rows: every row is processed independently, none is dropped. -/
def calculate_basic_schedule (base_date : ℚ) (rows : List ScheduleRow) : List ScheduledRow :=
  rows.map (basicScheduleRow base_date)

/-! ### Required headcount (calculate_required_people, both variants) -/

/-- The dynamic type of the `納期` value reaching
`calculate_required_people`: a string (holding a parseable date or not), or
a non-string value (in the live pipeline a pandas `Timestamp` carrying the
due day). -/
inductive DueInput where
  | strDate (parsed : Option ℤ)
  | dt (day : ℤ)
deriving DecidableEq, Repr

/-- Embedding of the inner `calculate_required_people` of
`InspectionScheduler.assign_inspectors` (inspection_scheduler.py lines
394–431) and its verbatim copy in `assign_inspectors_with_skill` (lines
651–678): non-positive time → 1; `days_until_due` comes from the due date
only when it is a string that `pd.to_datetime` can parse, and is 1
otherwise; days floored at 1; `available_hours = days * max(avg, 0.1)`;
`ceil` of the quotient clamped to at most 50 and at least 1. -/
def calculate_required_people (total_inspection_time : ℚ) (due_date : DueInput)
    (today : ℤ) (avg_working_hours : ℚ) : ℕ :=
  if total_inspection_time ≤ 0 then 1
  else
    let days0 : ℤ :=
      match due_date with
      | DueInput.strDate none => 1
      | DueInput.strDate (some d) => d - today
      | DueInput.dt _ => 1
    let days_until_due : ℤ := if days0 ≤ 0 then 1 else days0
    let available_hours : ℚ := (days_until_due : ℚ) * max avg_working_hours (1 / 10)
    let required_people : ℤ := ⌈total_inspection_time / available_hours⌉
    let required_people : ℤ := if 50 < required_people then 50 else required_people
    let required_people : ℤ := if required_people < 1 then 1 else required_people
    required_people.toNat

/-- Modelled from the claim wording, for comparison with
`calculate_required_people`: `ceil(total_hours / (days_available * avg))`
clamped to `[1, 50]` where `days_available = max(1, due_day - today)`. -/
def requiredPeopleSpec (total_hours : ℚ) (due_day today : ℤ) (avg : ℚ) : ℕ :=
  let days_available : ℤ := max 1 (due_day - today)
  let required : ℤ := ⌈total_hours / ((days_available : ℚ) * avg)⌉
  (max 1 (min 50 required)).toNat

/-! ### Assignment engine state and helpers -/

/-- One entry of the run-local `inspectors_status` list:
`{'name': …, 'available_time': …}`. -/
structure Inspector where
  name : String
  available_time : ℚ
deriving DecidableEq, Repr

/-- Stable descending insertion by `available_time` (helper of `sortDesc`). -/
def orderedInsertDesc (a : Inspector) : List Inspector → List Inspector
  | [] => [a]
  | b :: l =>
    if b.available_time ≤ a.available_time then a :: b :: l
    else b :: orderedInsertDesc a l

/-- Python's stable
`inspectors_status.sort(key=lambda x: x['available_time'], reverse=True)`. -/
def sortDesc : List Inspector → List Inspector
  | [] => []
  | a :: l => orderedInsertDesc a (sortDesc l)

/-- Single-person assignment: walk the (sorted) status list, subtract
`amount` from the first inspector satisfying `p`, return the new list and
the assigned names (`[]` or a singleton). -/
def assignFirst (p : Inspector → Bool) (amount : ℚ) : List Inspector → List Inspector × List String
  | [] => ([], [])
  | i :: rest =>
    if p i then ({ i with available_time := i.available_time - amount } :: rest, [i.name])
    else
      let r := assignFirst p amount rest
      (i :: r.1, r.2)

/-- Multi-person assignment: subtract `amount` from the first `k`
inspectors satisfying `p` (the code's `eligible_inspectors[:k]` slice,
whose dict entries alias the status list). -/
def assignUpTo (p : Inspector → Bool) (amount : ℚ) : ℕ → List Inspector → List Inspector × List String
  | 0, l => (l, [])
  | _ + 1, [] => ([], [])
  | k + 1, i :: rest =>
    if p i then
      let r := assignUpTo p amount k rest
      ({ i with available_time := i.available_time - amount } :: r.1, i.name :: r.2)
    else
      let r := assignUpTo p amount (k + 1) rest
      (i :: r.1, r.2)

/-- One task row consumed by the assignment loops: `総検査時間`,
`必要人数` and `品番`. -/
structure TaskRow where
  task_time : ℚ
  required : ℕ
  product_code : String
deriving Repr

/-- One output row of `assign_inspectors`. -/
structure AssignResult where
  required : ℕ
  assigned_count : ℕ
  assigned_names : List String
  shortage : ℕ
  is_new_product : Bool
deriving Repr

/-- The volume bound `max(1, ceil(task_time / max(avg_working_hours, 0.1)))`
(inspection_scheduler.py lines 500–501 and the shortage formula of line
540). -/
def requiredByVolume (task_time avg : ℚ) : ℕ :=
  max 1 (⌈task_time / max avg (1 / 10)⌉.toNat)

/-- The `不足人員` field of line 540: for a multi-person task the volume
bound minus the assigned count, otherwise `required` minus the assigned
count, floored at 0 (natural subtraction). -/
def shortageFormula (task_time avg : ℚ) (required assigned : ℕ) : ℕ :=
  (if 1 < required then requiredByVolume task_time avg else required) - assigned

/-- Per-task body of `InspectionScheduler.assign_inspectors`
(inspection_scheduler.py lines 451–544): skip non-positive times, sort the
status list descending, then dispatch on `required == 1` / multi-person and
on new-product status; new-product tasks draw only from `team`
(the new-product team names) and an empty team assigns nobody. -/
def assignStep (isNewF : String → Bool) (team : List String) (avg : ℚ)
    (st : List Inspector) (t : TaskRow) : List Inspector × AssignResult :=
  if 0 < t.task_time then
    let is_new := isNewF t.product_code
    let sorted := sortDesc st
    if t.required = 1 then
      if is_new then
        if team ≠ [] then
          let r := assignFirst
            (fun i => team.contains i.name && decide (t.task_time ≤ i.available_time))
            t.task_time sorted
          (r.1, ⟨t.required, r.2.length, r.2,
                 shortageFormula t.task_time avg t.required r.2.length, true⟩)
        else
          (sorted, ⟨t.required, 0, [], shortageFormula t.task_time avg t.required 0, true⟩)
      else
        let r := assignFirst (fun i => decide (t.task_time ≤ i.available_time)) t.task_time sorted
        (r.1, ⟨t.required, r.2.length, r.2,
               shortageFormula t.task_time avg t.required r.2.length, false⟩)
    else
      let effective_required := min t.required (requiredByVolume t.task_time avg)
      if is_new then
        if team ≠ [] then
          let r := assignUpTo
            (fun i => decide (avg ≤ i.available_time) && team.contains i.name)
            avg effective_required sorted
          (r.1, ⟨t.required, r.2.length, r.2,
                 shortageFormula t.task_time avg t.required r.2.length, true⟩)
        else
          (sorted, ⟨t.required, 0, [], shortageFormula t.task_time avg t.required 0, true⟩)
      else
        let r := assignUpTo (fun i => decide (avg ≤ i.available_time)) avg effective_required sorted
        (r.1, ⟨t.required, r.2.length, r.2,
               shortageFormula t.task_time avg t.required r.2.length, false⟩)
  else
    (st, ⟨t.required, 0, [], shortageFormula t.task_time avg t.required 0, false⟩)

/-- The prioritized task loop of `assign_inspectors`: process tasks in
order, threading the status list. -/
def assignLoop (isNewF : String → Bool) (team : List String) (avg : ℚ)
    (st : List Inspector) : List TaskRow → List Inspector × List AssignResult
  | [] => (st, [])
  | t :: ts =>
    let r := assignStep isNewF team avg st t
    let rest := assignLoop isNewF team avg r.1 ts
    (rest.1, r.2 :: rest.2)

/-! ### Skill-tiered assignment (assign_inspectors_with_skill) -/

/-- One output row of `assign_inspectors_with_skill`. -/
structure SkillResult where
  required : ℕ
  assigned_count : ℕ
  assigned_names : List String
  shortage : ℕ
deriving Repr

/-- Find the first status entry named `name`; if its remaining time covers
`amount`, subtract and return the updated list, otherwise (or when absent)
return `none` (the code's `next(...)` lookup plus availability check). -/
def trySubtract (name : String) (amount : ℚ) : List Inspector → Option (List Inspector)
  | [] => none
  | i :: rest =>
    if i.name = name then
      if amount ≤ i.available_time then
        some ({ i with available_time := i.available_time - amount } :: rest)
      else none
    else (trySubtract name amount rest).map (fun l => i :: l)

/-- Skill-ordered pass of `assign_inspectors_with_skill`
(inspection_scheduler.py lines 716–746): walk the level-sorted candidate
list `(inspector_id, skill_level)`, stop once `required` is reached, map
ids to names (unmappable ids are skipped), and assign whenever the named
inspector has enough remaining time. -/
def skillPass (idToName : String → Option String) (required : ℕ) (amount : ℚ) :
    List (String × ℕ) → List Inspector → ℕ → List Inspector × ℕ × List String
  | [], st, count => (st, count, [])
  | (iid, lvl) :: rest, st, count =>
    if required ≤ count then (st, count, [])
    else
      match idToName iid with
      | none => skillPass idToName required amount rest st count
      | some nm =>
        match trySubtract nm amount st with
        | none => skillPass idToName required amount rest st count
        | some st2 =>
          let r := skillPass idToName required amount rest st2 (count + 1)
          (r.1, r.2.1, (nm ++ "(スキル" ++ toString lvl ++ ")") :: r.2.2)

/-- General pass of `assign_inspectors_with_skill` (lines 749–758 and
763–775): walk the descending-sorted status list, stop once `required` is
reached, assign whenever the remaining time covers `amount`. -/
def generalPass (required : ℕ) (amount : ℚ) : ℕ → List Inspector → List Inspector × ℕ × List String
  | count, [] => ([], count, [])
  | count, i :: rest =>
    if required ≤ count then (i :: rest, count, [])
    else if amount ≤ i.available_time then
      let r := generalPass required amount (count + 1) rest
      ({ i with available_time := i.available_time - amount } :: r.1, r.2.1,
       (i.name ++ "(一般)") :: r.2.2)
    else
      let r := generalPass required amount count rest
      (i :: r.1, r.2.1, r.2.2)

/-- Per-task body of `InspectionScheduler.assign_inspectors_with_skill`
(inspection_scheduler.py lines 697–791): for a task with positive time and
a non-empty part code, run the skill pass over the level-sorted candidates
of the part, topping up from a general pass over the re-sorted pool when
the skill pass falls short; with no skill candidates at all, run only the
general pass.  The per-inspector charge is the full task time for a
single-person task and one average shift otherwise; `不足人員` is
`max(required - assigned, 0)`. -/
def skillStep (skilledF : String → List (String × ℕ)) (idToName : String → Option String)
    (avg : ℚ) (st : List Inspector) (t : TaskRow) : List Inspector × SkillResult :=
  if 0 < t.task_time ∧ t.product_code ≠ "" then
    let amount := if t.required = 1 then t.task_time else avg
    let skilled := skilledF t.product_code
    if skilled ≠ [] then
      let r1 := skillPass idToName t.required amount skilled st 0
      if r1.2.1 < t.required then
        let r2 := generalPass t.required amount r1.2.1 (sortDesc r1.1)
        (r2.1, ⟨t.required, r2.2.1, r1.2.2 ++ r2.2.2, t.required - r2.2.1⟩)
      else
        (r1.1, ⟨t.required, r1.2.1, r1.2.2, t.required - r1.2.1⟩)
    else
      let r2 := generalPass t.required amount 0 (sortDesc st)
      (r2.1, ⟨t.required, r2.2.1, r2.2.2, t.required - r2.2.1⟩)
  else
    (st, ⟨t.required, 0, [], t.required - 0⟩)

/-- The prioritized task loop of `assign_inspectors_with_skill`. -/
def skillLoop (skilledF : String → List (String × ℕ)) (idToName : String → Option String)
    (avg : ℚ) (st : List Inspector) : List TaskRow → List Inspector × List SkillResult
  | [] => (st, [])
  | t :: ts =>
    let r := skillStep skilledF idToName avg st t
    let rest := skillLoop skilledF idToName avg r.1 ts
    (rest.1, r.2 :: rest.2)

/-! ### Scheduler state and the two assignment methods -/

/-- One row of the inspector master as the assignment methods read it:
name, the `新製品チーム` star flag, and the derived `勤務時間`. -/
structure InspectorRecord where
  name : String
  star : Bool
  working_hours : ℚ
deriving Repr

/-- One row of `scheduled_products` as the assignment methods read it. -/
structure SchedTask where
  total_time : ℚ
  due : DueInput
  product_code : String
deriving Repr

/-- The `InspectionScheduler` fields read by the two assignment methods.
The pandas frames become lists; the skill master and the id→name lookup
become functions (their dataframe scans are pure lookups). -/
structure SchedulerState where
  scheduled_products : List SchedTask
  product_master_codes : List String
  inspector_master : List InspectorRecord
  skill_lookup : String → List (String × ℕ)
  id_to_name : String → Option String
  base_day : ℤ

/-- Average working hours (inspection_scheduler.py lines 364–373): the mean
of the per-inspector `勤務時間` when at least one is positive, else the
8-hour default. -/
def avgWorkingHours (l : List InspectorRecord) : ℚ :=
  if l.any (fun r => decide (0 < r.working_hours)) then
    (l.map (fun r => r.working_hours)).sum / (l.length : ℚ)
  else 8

/-- Embedding of `get_new_product_team_members` (lines 548–576): the names
of the inspectors whose `新製品チーム` column holds `★`. -/
def get_new_product_team_members (s : SchedulerState) : List String :=
  (s.inspector_master.filter (fun r => r.star)).map (fun r => r.name)

/-- Embedding of `is_unregistered_product` (lines 578–601): true iff the
part code does not occur in the product master. -/
def is_unregistered_product (s : SchedulerState) (product_code : String) : Bool :=
  !(s.product_master_codes.contains product_code)

/-- The `due_date_diff` sort column (lines 438–440): days from `today` to
the due date, `999` for an unparseable date. -/
def dueDateDiff (today : ℤ) : DueInput → ℤ
  | DueInput.strDate none => 999
  | DueInput.strDate (some d) => d - today
  | DueInput.dt d => d - today

/-- Boolean sort key of the assignment pass (lines 443–447 and 690–694):
`due_date_diff` ascending, then `総検査時間` descending; ties keep the
original order (stable sort). -/
def taskBefore (today : ℤ) (a b : SchedTask) : Bool :=
  decide (dueDateDiff today a.due < dueDateDiff today b.due) ||
    (decide (dueDateDiff today a.due = dueDateDiff today b.due) &&
      decide (b.total_time ≤ a.total_time))

/-- Stable insertion for the task sort. -/
def orderedInsertTask (today : ℤ) (a : SchedTask) : List SchedTask → List SchedTask
  | [] => [a]
  | b :: l => if taskBefore today a b then a :: b :: l else b :: orderedInsertTask today a l

/-- Python's stable `sort_values(by=['due_date_diff', '総検査時間'],
ascending=[True, False])`. -/
def sortTasks (today : ℤ) : List SchedTask → List SchedTask
  | [] => []
  | a :: l => orderedInsertTask today a (sortTasks today l)

/-- Task-row construction shared by both methods: the `必要人数` column. -/
def toTaskRow (today : ℤ) (avg : ℚ) (p : SchedTask) : TaskRow :=
  ⟨p.total_time, calculate_required_people p.total_time p.due today avg, p.product_code⟩

/-- Embedding of `InspectionScheduler.assign_inspectors`
(inspection_scheduler.py lines 340–546) as a state transformer: the method
copies the masters, derives the average shift, initializes the run-local
budgets, prioritizes the product rows and folds the per-task assignment
over them.  No statement of the method writes a scheduler field, so the
state component of the result is the input state. -/
def assign_inspectors (s : SchedulerState) : SchedulerState × List AssignResult :=
  let inspectors := s.inspector_master
  let avg := avgWorkingHours inspectors
  let init : List Inspector := inspectors.map (fun r => ⟨r.name, avg⟩)
  let team := get_new_product_team_members s
  let tasks := (sortTasks s.base_day s.scheduled_products).map (toTaskRow s.base_day avg)
  (s, (assignLoop (fun c => is_unregistered_product s c) team avg init tasks).2)

/-- Embedding of `InspectionScheduler.assign_inspectors_with_skill`
(inspection_scheduler.py lines 603–791) as a state transformer. -/
def assign_inspectors_with_skill (s : SchedulerState) : SchedulerState × List SkillResult :=
  let inspectors := s.inspector_master
  let avg := avgWorkingHours inspectors
  let init : List Inspector := inspectors.map (fun r => ⟨r.name, avg⟩)
  let tasks := (sortTasks s.base_day s.scheduled_products).map (toTaskRow s.base_day avg)
  (s, (skillLoop s.skill_lookup s.id_to_name avg init tasks).2)

/-- Budget invariant of the claims: every run-local inspector budget is
nonnegative. -/
def budgetsNonneg (st : List Inspector) : Prop :=
  ∀ i ∈ st, 0 ≤ i.available_time

/-! ### Helper lemmas -/

lemma deadlineLoop_stop (r d : ℚ) (h : r ≤ 0) : deadlineLoop r d = d := by
  rw [deadlineLoop.eq_def]
  simp [not_lt.mpr h]

lemma deadlineLoop_weekday (r d : ℚ) (h : 0 < r) (hw : isWeekday (d - 1) = true) :
    deadlineLoop r d = deadlineLoop (r - 1) (d - 1) := by
  conv_lhs => rw [deadlineLoop.eq_def]
  simp [h, hw]

lemma deadlineLoop_weekend (r d : ℚ) (h : 0 < r) (hw : isWeekday (d - 1) = false) :
    deadlineLoop r d = deadlineLoop r (d - 1) := by
  conv_lhs => rw [deadlineLoop.eq_def]
  simp [h, hw]

lemma percentileLinear_singleton (a p : ℚ) : percentileLinear [a] p = a := by
  simp [percentileLinear, sortAscQ, orderedInsertQ]

/-! ### Claims about the date calculator -/

/-- C1: the inspection-start deadline converts hours to business days
needed (`total_hours / 8`) and walks backward one calendar day at a time
from the due date, decrementing the remaining-day counter only on
Monday–Friday (weekends never decrement) until it reaches zero or below;
`deadline(Friday, 8h)` is the Thursday of the same week and
`deadline(Monday, 8h)` is the Friday of the prior week (day 0 being a
Monday, day 4 the Friday of that week and day 7 the following Monday). -/
theorem C1_deadline_business_day_walk :
    (∀ due hours : ℚ, calculate_inspection_deadline due hours = deadlineLoop (hours / 8) due) ∧
    (∀ r d : ℚ, r ≤ 0 → deadlineLoop r d = d) ∧
    (∀ r d : ℚ, 0 < r → isWeekday (d - 1) = true →
      deadlineLoop r d = deadlineLoop (r - 1) (d - 1)) ∧
    (∀ r d : ℚ, 0 < r → isWeekday (d - 1) = false →
      deadlineLoop r d = deadlineLoop r (d - 1)) ∧
    calculate_inspection_deadline 4 8 = 3 ∧
    calculate_inspection_deadline 7 8 = 4 := by
  refine ⟨fun _ _ => rfl, deadlineLoop_stop, deadlineLoop_weekday, deadlineLoop_weekend, ?_, ?_⟩
  · show deadlineLoop (8 / 8) 4 = 3
    rw [deadlineLoop.eq_def]
    norm_num [isWeekday]
    rw [deadlineLoop.eq_def]
    norm_num
  · show deadlineLoop (8 / 8) 7 = 4
    rw [deadlineLoop.eq_def]
    norm_num [isWeekday]
    rw [deadlineLoop.eq_def]
    norm_num [isWeekday]
    rw [deadlineLoop.eq_def]
    norm_num [isWeekday]
    rw [deadlineLoop.eq_def]
    norm_num

/-- Witness for C1: the stop, weekday and weekend cases hold at concrete
inputs (day 4 − 1 = Thursday is a weekday, day 7 − 1 = Sunday is not). -/
theorem C1_deadline_business_day_walk_witness :
    deadlineLoop 0 5 = 5 ∧ deadlineLoop 1 4 = deadlineLoop 0 3 ∧
      deadlineLoop 1 7 = deadlineLoop 1 6 := by
  refine ⟨C1_deadline_business_day_walk.2.1 0 5 le_rfl, ?_, ?_⟩
  · have h := C1_deadline_business_day_walk.2.2.1 1 4 (by norm_num)
      (by norm_num [isWeekday])
    norm_num at h
    exact h
  · have h := C1_deadline_business_day_walk.2.2.2.1 1 7 (by norm_num)
      (by norm_num [isWeekday])
    norm_num at h
    exact h

/-- C6: with `d = ⌊deadline − now⌋` in days, the urgency level is exactly
1 for `d ≤ 1`, 2 for `1 < d ≤ 3`, 3 for `3 < d ≤ 7` and 4 otherwise, and
the level is monotonically non-decreasing in `d`. -/
theorem C6_urgency_boundaries_and_monotone :
    (∀ base dl : ℚ,
      (⌊dl - base⌋ ≤ 1 → calculate_urgency_level base dl = 1) ∧
      (1 < ⌊dl - base⌋ → ⌊dl - base⌋ ≤ 3 → calculate_urgency_level base dl = 2) ∧
      (3 < ⌊dl - base⌋ → ⌊dl - base⌋ ≤ 7 → calculate_urgency_level base dl = 3) ∧
      (7 < ⌊dl - base⌋ → calculate_urgency_level base dl = 4)) ∧
    (∀ base dl dl2 : ℚ, ⌊dl - base⌋ ≤ ⌊dl2 - base⌋ →
      calculate_urgency_level base dl ≤ calculate_urgency_level base dl2) := by
  constructor
  · intro base dl
    simp only [calculate_urgency_level]
    refine ⟨fun h => ?_, fun h1 h2 => ?_, fun h1 h2 => ?_, fun h => ?_⟩ <;>
      split_ifs <;> omega
  · intro base dl dl2 h
    simp only [calculate_urgency_level]
    split_ifs <;> omega

/-- Witness for C6: day differences 2 and 10 from base 0 give levels 2 and
4 in order. -/
theorem C6_urgency_boundaries_and_monotone_witness :
    calculate_urgency_level 0 2 = 2 ∧
      calculate_urgency_level 0 2 ≤ calculate_urgency_level 0 10 := by
  constructor
  · exact (C6_urgency_boundaries_and_monotone.1 0 2).2.1 (by norm_num) (by norm_num)
  · exact C6_urgency_boundaries_and_monotone.2 0 2 10 (by norm_num)

/-! ### Claims about the unit normalizer -/

/-- C9: the already-hours branch of the auto-detection path is unreachable:
its guard (95th pct ≤ 1.0 and median ≤ 0.5) implies the minutes guard
(95th pct ≤ 100 and median ≤ 60) tested before it, so auto detection never
returns the identity `hours` classification. -/
theorem C9_auto_hours_unreachable : ∀ s : List ℚ, autoDetectUnit s ≠ TimeUnit.hours := by
  intro s
  unfold autoDetectUnit
  cases hmax : (s.filter (fun x => decide (0 ≤ x))).max? with
  | none => simp [hmax]
  | some m =>
    simp only [hmax]
    split_ifs with h1 h2 h3
    · simp
    · simp
    · exact absurd ⟨le_trans h3.1 (by norm_num), le_trans h3.2 (by norm_num)⟩ h2
    · simp

lemma filter_nonneg_two : ([2] : List ℚ).filter (fun x => decide (0 ≤ x)) = [2] := by
  norm_num

lemma fallbackDetectUnit_two : fallbackDetectUnit [2] = TimeUnit.hours := by
  have h95 : percentileLinear [2] (95 / 100) = 2 := percentileLinear_singleton 2 _
  have hmed : percentileLinear [2] (1 / 2) = 2 := percentileLinear_singleton 2 _
  simp only [fallbackDetectUnit, filter_nonneg_two, h95, hmed]
  norm_num [List.max?]

lemma autoDetectUnit_two : autoDetectUnit [2] = TimeUnit.minutes := by
  have h95 : percentileLinear [2] (95 / 100) = 2 := percentileLinear_singleton 2 _
  have hmed : percentileLinear [2] (1 / 2) = 2 := percentileLinear_singleton 2 _
  simp only [autoDetectUnit, filter_nonneg_two, h95, hmed]
  norm_num [List.max?]

/-- Counterexample for C5: on the one-element sample `[2.0]` the
unrecognized-forced-unit fallback classifies the data as hours (identity)
while the no-forced-unit auto path classifies it as minutes (÷60), so the
two paths are not the same function of the sample. -/
theorem C5_counterexample_fallback_neq_auto : normalizeFallback [2] ≠ normalizeAuto [2] := by
  unfold normalizeFallback normalizeAuto
  rw [fallbackDetectUnit_two, autoDetectUnit_two]
  simp only [applyUnit, List.map]
  intro h
  rw [List.cons.injEq] at h
  have h2 := h.1
  norm_num at h2

/-- C5 amended: the unrecognized-forced-unit path does not fall back to the
auto rules; it applies its own thresholds (max ≤ 1.5 → ×24; else 95th
pct ≤ 24 and median ≤ 8 → identity; else 95th pct ≤ 600 → ÷60; else
÷3600).  The two paths agree whenever the sample maximum is ≤ 1.5 (both
multiply by 24), but differ in general: on `[2.0]` the fallback is the
identity while the auto path divides by 60. -/
theorem C5_fallback_own_thresholds :
    (∀ (s : List ℚ) (m : ℚ), (s.filter (fun x => decide (0 ≤ x))).max? = some m →
      m ≤ 3 / 2 → normalizeFallback s = normalizeAuto s) ∧
    (∀ (s : List ℚ) (m : ℚ), (s.filter (fun x => decide (0 ≤ x))).max? = some m →
      ¬ m ≤ 3 / 2 →
      percentileLinear (s.filter (fun x => decide (0 ≤ x))) (95 / 100) ≤ 24 →
      percentileLinear (s.filter (fun x => decide (0 ≤ x))) (1 / 2) ≤ 8 →
      normalizeFallback s = s) ∧
    normalizeFallback [2] = [2] ∧ normalizeAuto [2] = [1 / 30] := by
  refine ⟨?_, ?_, ?_, ?_⟩
  · intro s m hmax hle
    simp only [normalizeFallback, normalizeAuto, fallbackDetectUnit, autoDetectUnit, hmax]
    simp [hle]
  · intro s m hmax hgt hq hmed
    rw [one_div] at hmed
    simp only [normalizeFallback, fallbackDetectUnit, hmax]
    simp [hgt, hq, hmed, applyUnit]
  · unfold normalizeFallback
    rw [fallbackDetectUnit_two]
    simp [applyUnit]
  · unfold normalizeAuto
    rw [autoDetectUnit_two]
    simp only [applyUnit, List.map]
    norm_num

/-- Witness for C5: on the sample `[1]` (maximum ≤ 1.5) the fallback and
auto paths agree, and on `[2]` the fallback is the identity. -/
theorem C5_fallback_own_thresholds_witness :
    normalizeFallback [1] = normalizeAuto [1] ∧ normalizeFallback [2] = [2] := by
  constructor
  · exact C5_fallback_own_thresholds.1 [1] 1 (by norm_num) (by norm_num)
  · exact C5_fallback_own_thresholds.2.2.1

/-! ### Claims about the basic schedule and required headcount -/

/-- C8: schedule computation is total — a task with a null due date (hence
a null deadline) is retained with urgency level 4 and the 999
days-until-deadline sentinel, every row of the batch is processed, and no
row halts the others (each output row depends only on its own input row). -/
theorem C8_null_deadline_sentinel :
    ∀ (base : ℚ) (rows : List ScheduleRow),
      (calculate_basic_schedule base rows).length = rows.length ∧
      (∀ (i : ℕ) (r : ScheduleRow), rows[i]? = some r →
        (calculate_basic_schedule base rows)[i]? = some (basicScheduleRow base r)) ∧
      (∀ (i : ℕ) (r : ScheduleRow), rows[i]? = some r → r.due = none →
        ∃ o, (calculate_basic_schedule base rows)[i]? = some o ∧
          o.deadline = none ∧ o.urgency = 4 ∧ o.days_until = 999) := by
  intro base rows
  refine ⟨by simp [calculate_basic_schedule], ?_, ?_⟩
  · intro i r hr
    simp [calculate_basic_schedule, hr]
  · intro i r hr hdue
    refine ⟨basicScheduleRow base r, by simp [calculate_basic_schedule, hr], ?_, ?_, ?_⟩ <;>
      simp [basicScheduleRow, hdue]

/-- Witness for C8: a two-row batch whose first row has a null due date is
fully processed and the first row gets the sentinel values. -/
theorem C8_null_deadline_sentinel_witness :
    (calculate_basic_schedule 0 [⟨none, some (-12), some 1⟩, ⟨some 4, some 2, some 3⟩]).length = 2 ∧
    (∃ o, (calculate_basic_schedule 0
        [⟨none, some (-12), some 1⟩, ⟨some 4, some 2, some 3⟩])[0]? = some o ∧
      o.deadline = none ∧ o.urgency = 4 ∧ o.days_until = 999) :=
  ⟨(C8_null_deadline_sentinel 0 [⟨none, some (-12), some 1⟩, ⟨some 4, some 2, some 3⟩]).1,
   (C8_null_deadline_sentinel 0 [⟨none, some (-12), some 1⟩, ⟨some 4, some 2, some 3⟩]).2.2
     0 ⟨none, some (-12), some 1⟩ rfl rfl⟩

lemma max_avg_eq {avg : ℚ} (h : 1 / 10 ≤ avg) : max avg (1 / 10) = avg :=
  max_eq_left h

/-- Counterexample for C3: with the due date supplied as a datetime 10 days
after today (not a string), total hours 80 and an 8-hour average shift, the
code returns `ceil(80 / (1 * 8)) = 10` while the claimed formula
`ceil(80 / (max 1 (due - today) * 8))` gives 1 — the days-until-due never
enters the computation for a non-string due date. -/
theorem C3_counterexample_datetime_due :
    calculate_required_people 80 (DueInput.dt 10) 0 8 ≠ requiredPeopleSpec 80 10 0 8 := by
  have h1 : calculate_required_people 80 (DueInput.dt 10) 0 8 = 10 := by
    simp only [calculate_required_people]
    norm_num [max_avg_eq]
    decide
  have h2 : requiredPeopleSpec 80 10 0 8 = 1 := by
    simp only [requiredPeopleSpec]
    norm_num
  omega

/-- C3 amended: the clamped formula
`ceil(total / (days_available * max(avg, 0.1)))` with
`days_available = max(1, due_day − today)` holds only when the due date is
a string that parses; a non-string due date (the live pipeline's
`Timestamp`) or an unparseable string fixes `days_available = 1`. -/
theorem C3_required_people_string_only :
    ∀ (total : ℚ) (d today : ℤ) (avg : ℚ), 0 < total → 1 / 10 ≤ avg →
      (calculate_required_people total (DueInput.strDate (some d)) today avg =
        requiredPeopleSpec total d today avg ∧
       calculate_required_people total (DueInput.dt d) today avg =
        requiredPeopleSpec total (today + 1) today avg ∧
       calculate_required_people total (DueInput.strDate none) today avg =
        requiredPeopleSpec total (today + 1) today avg) := by
  intro total d today avg ht ha
  have hmax : max avg (1 / 10) = avg := max_avg_eq ha
  have hnot : ¬ total ≤ 0 := not_le.mpr ht
  refine ⟨?_, ?_, ?_⟩
  · simp only [calculate_required_people, requiredPeopleSpec, hmax, if_neg hnot]
    have hd : (if d - today ≤ 0 then (1:ℤ) else d - today) = max 1 (d - today) := by omega
    rw [hd]
    split_ifs <;> omega
  · simp only [calculate_required_people, requiredPeopleSpec, hmax, if_neg hnot]
    have hd : max 1 (today + 1 - today) = (1:ℤ) := by omega
    rw [hd]
    split_ifs <;> omega
  · simp only [calculate_required_people, requiredPeopleSpec, hmax, if_neg hnot]
    have hd : max 1 (today + 1 - today) = (1:ℤ) := by omega
    rw [hd]
    split_ifs <;> omega

/-- Witness for C3: a string due date 10 days out with 80 total hours and
an 8-hour shift satisfies the amended formula (both sides are 1), and a
datetime due date collapses to one available day. -/
theorem C3_required_people_string_only_witness :
    calculate_required_people 80 (DueInput.strDate (some 10)) 0 8 =
      requiredPeopleSpec 80 10 0 8 ∧
    calculate_required_people 80 (DueInput.dt 10) 0 8 = requiredPeopleSpec 80 1 0 8 := by
  have h := C3_required_people_string_only 80 10 0 8 (by norm_num) (by norm_num)
  have h2 := h.2.1
  have h3 : ((0:ℤ) + 1) = 1 := by norm_num
  rw [h3] at h2
  exact ⟨h.1, h2⟩

/-! ### Helper lemmas for the assignment engine -/

lemma mem_orderedInsertDesc {i a : Inspector} {l : List Inspector} :
    i ∈ orderedInsertDesc a l ↔ i = a ∨ i ∈ l := by
  induction l with
  | nil => simp [orderedInsertDesc]
  | cons b l ih =>
    simp only [orderedInsertDesc]
    split
    · simp
    · simp only [List.mem_cons, ih]
      tauto

lemma mem_sortDesc {i : Inspector} {l : List Inspector} : i ∈ sortDesc l ↔ i ∈ l := by
  induction l with
  | nil => simp [sortDesc]
  | cons a l ih => simp [sortDesc, mem_orderedInsertDesc, ih]

lemma budgetsNonneg_sortDesc {l : List Inspector} (h : budgetsNonneg l) :
    budgetsNonneg (sortDesc l) := fun i hi => h i (mem_sortDesc.mp hi)

lemma assignFirst_nonneg {p : Inspector → Bool} {amount : ℚ} {l : List Inspector}
    (hp : ∀ i, p i = true → amount ≤ i.available_time) (h : budgetsNonneg l) :
    budgetsNonneg (assignFirst p amount l).1 := by
  induction l with
  | nil => simpa [assignFirst] using h
  | cons i rest ih =>
    have hi := h i (by simp)
    have hrest : budgetsNonneg rest := fun j hj => h j (List.mem_cons_of_mem _ hj)
    simp only [assignFirst]
    split
    · intro j hj
      rcases List.mem_cons.mp hj with hj | hj
      · subst hj
        have := hp i (by assumption)
        simp only
        linarith
      · exact hrest j hj
    · intro j hj
      rcases List.mem_cons.mp hj with hj | hj
      · subst hj; exact hi
      · exact ih hrest j hj

lemma assignUpTo_nonneg {p : Inspector → Bool} {amount : ℚ} {k : ℕ} {l : List Inspector}
    (hp : ∀ i, p i = true → amount ≤ i.available_time) (h : budgetsNonneg l) :
    budgetsNonneg (assignUpTo p amount k l).1 := by
  induction l generalizing k with
  | nil => cases k <;> simpa [assignUpTo] using h
  | cons i rest ih =>
    have hi := h i (by simp)
    have hrest : budgetsNonneg rest := fun j hj => h j (List.mem_cons_of_mem _ hj)
    cases k with
    | zero => simpa [assignUpTo] using h
    | succ k =>
      simp only [assignUpTo]
      split
      · intro j hj
        rcases List.mem_cons.mp hj with hj | hj
        · subst hj
          have := hp i (by assumption)
          simp only
          linarith
        · exact ih hrest j hj
      · intro j hj
        rcases List.mem_cons.mp hj with hj | hj
        · subst hj; exact hi
        · exact ih hrest j hj

lemma trySubtract_nonneg {name : String} {amount : ℚ} {l l2 : List Inspector}
    (hs : trySubtract name amount l = some l2) (h : budgetsNonneg l) :
    budgetsNonneg l2 := by
  induction l generalizing l2 with
  | nil => simp [trySubtract] at hs
  | cons i rest ih =>
    have hi := h i (by simp)
    have hrest : budgetsNonneg rest := fun j hj => h j (List.mem_cons_of_mem _ hj)
    simp only [trySubtract] at hs
    split at hs
    · split at hs
      · rw [Option.some.injEq] at hs
        subst hs
        intro j hj
        rcases List.mem_cons.mp hj with hj | hj
        · subst hj
          simp only
          linarith [show amount ≤ i.available_time from by assumption]
        · exact hrest j hj
      · exact absurd hs (by simp)
    · rcases Option.map_eq_some'.mp hs with ⟨l3, hl3, rfl⟩
      intro j hj
      rcases List.mem_cons.mp hj with hj | hj
      · subst hj; exact hi
      · exact ih hl3 hrest j hj

lemma skillPass_nonneg {idToName : String → Option String} {required : ℕ} {amount : ℚ}
    {cands : List (String × ℕ)} {st : List Inspector} {count : ℕ}
    (h : budgetsNonneg st) :
    budgetsNonneg (skillPass idToName required amount cands st count).1 := by
  induction cands generalizing st count with
  | nil => simpa [skillPass] using h
  | cons c rest ih =>
    obtain ⟨iid, lvl⟩ := c
    simp only [skillPass]
    split
    · exact h
    · cases hn : idToName iid with
      | none => simp only; exact ih h
      | some nm =>
        simp only
        cases hts : trySubtract nm amount st with
        | none => simp only; exact ih h
        | some st2 => simp only; exact ih (trySubtract_nonneg hts h)

lemma generalPass_nonneg {required : ℕ} {amount : ℚ} {count : ℕ} {l : List Inspector}
    (h : budgetsNonneg l) :
    budgetsNonneg (generalPass required amount count l).1 := by
  induction l generalizing count with
  | nil => simpa [generalPass] using h
  | cons i rest ih =>
    have hi := h i (by simp)
    have hrest : budgetsNonneg rest := fun j hj => h j (List.mem_cons_of_mem _ hj)
    simp only [generalPass]
    split
    · exact h
    · split
      · intro j hj
        rcases List.mem_cons.mp hj with hj | hj
        · subst hj
          simp only
          linarith [show amount ≤ i.available_time from by assumption]
        · exact ih hrest j hj
      · intro j hj
        rcases List.mem_cons.mp hj with hj | hj
        · subst hj; exact hi
        · exact ih hrest j hj

lemma assignStep_nonneg {isNewF : String → Bool} {team : List String} {avg : ℚ}
    {st : List Inspector} {t : TaskRow} (h : budgetsNonneg st) :
    budgetsNonneg (assignStep isNewF team avg st t).1 := by
  have hsorted := budgetsNonneg_sortDesc h
  simp only [assignStep]
  split_ifs
  · exact assignFirst_nonneg
      (fun i hi => by
        have := (Bool.and_eq_true _ _).mp hi
        exact of_decide_eq_true this.2) hsorted
  · exact hsorted
  · exact assignFirst_nonneg (fun i hi => of_decide_eq_true hi) hsorted
  · exact assignUpTo_nonneg
      (fun i hi => by
        have := (Bool.and_eq_true _ _).mp hi
        exact of_decide_eq_true this.1) hsorted
  · exact hsorted
  · exact assignUpTo_nonneg (fun i hi => of_decide_eq_true hi) hsorted
  · exact h

lemma skillStep_nonneg {skilledF : String → List (String × ℕ)}
    {idToName : String → Option String} {avg : ℚ} {st : List Inspector} {t : TaskRow}
    (h : budgetsNonneg st) :
    budgetsNonneg (skillStep skilledF idToName avg st t).1 := by
  simp only [skillStep]
  split_ifs <;>
    first
      | exact generalPass_nonneg (budgetsNonneg_sortDesc (skillPass_nonneg h))
      | exact skillPass_nonneg h
      | exact generalPass_nonneg (budgetsNonneg_sortDesc h)
      | exact h

lemma assignLoop_nonneg {isNewF : String → Bool} {team : List String} {avg : ℚ}
    {st : List Inspector} {ts : List TaskRow} (h : budgetsNonneg st) :
    budgetsNonneg (assignLoop isNewF team avg st ts).1 := by
  induction ts generalizing st with
  | nil => simpa [assignLoop] using h
  | cons t ts ih => exact ih (assignStep_nonneg h)

lemma skillLoop_nonneg {skilledF : String → List (String × ℕ)}
    {idToName : String → Option String} {avg : ℚ} {st : List Inspector}
    {ts : List TaskRow} (h : budgetsNonneg st) :
    budgetsNonneg (skillLoop skilledF idToName avg st ts).1 := by
  induction ts generalizing st with
  | nil => simpa [skillLoop] using h
  | cons t ts ih => exact ih (skillStep_nonneg h)

/-! ### Claims about the assignment engine -/

/-- C2: in both assignment variants every subtraction is guarded by a check
that the inspector's remaining time covers the amount (the full task time
for single-person tasks, one average shift for multi-person tasks), so a
run starting from nonnegative budgets keeps every budget nonnegative after
each task — including after every prefix of the prioritized task list. -/
theorem C2_budgets_never_negative :
    (∀ (isNewF : String → Bool) (team : List String) (avg : ℚ)
        (st : List Inspector) (t : TaskRow), budgetsNonneg st →
        budgetsNonneg (assignStep isNewF team avg st t).1) ∧
    (∀ (skilledF : String → List (String × ℕ)) (idToName : String → Option String)
        (avg : ℚ) (st : List Inspector) (t : TaskRow), budgetsNonneg st →
        budgetsNonneg (skillStep skilledF idToName avg st t).1) ∧
    (∀ (isNewF : String → Bool) (team : List String) (avg : ℚ)
        (st : List Inspector) (ts : List TaskRow) (n : ℕ), budgetsNonneg st →
        budgetsNonneg (assignLoop isNewF team avg st (ts.take n)).1) ∧
    (∀ (skilledF : String → List (String × ℕ)) (idToName : String → Option String)
        (avg : ℚ) (st : List Inspector) (ts : List TaskRow) (n : ℕ), budgetsNonneg st →
        budgetsNonneg (skillLoop skilledF idToName avg st (ts.take n)).1) :=
  ⟨fun _ _ _ _ _ h => assignStep_nonneg h,
   fun _ _ _ _ _ h => skillStep_nonneg h,
   fun _ _ _ _ _ _ h => assignLoop_nonneg h,
   fun _ _ _ _ _ _ h => skillLoop_nonneg h⟩

/-- Witness for C2: one concrete step from the all-8-hours state keeps
budgets nonnegative. -/
theorem C2_budgets_never_negative_witness :
    budgetsNonneg (assignStep (fun _ => false) [] 8 [⟨"A", 8⟩, ⟨"B", 8⟩] ⟨4, 1, "P"⟩).1 :=
  C2_budgets_never_negative.1 (fun _ => false) [] 8 [⟨"A", 8⟩, ⟨"B", 8⟩] ⟨4, 1, "P"⟩
    (by
      intro i hi
      rcases List.mem_cons.mp hi with h | h
      · subst h; norm_num
      · rcases List.mem_cons.mp h with h | h
        · subst h; norm_num
        · simp at h)

lemma assignFirst_names {p : Inspector → Bool} {amount : ℚ} {l : List Inspector}
    {team : List String} (hp : ∀ i, p i = true → i.name ∈ team) :
    ∀ n ∈ (assignFirst p amount l).2, n ∈ team := by
  induction l with
  | nil => simp [assignFirst]
  | cons i rest ih =>
    simp only [assignFirst]
    split
    · intro n hn
      simp only [List.mem_singleton] at hn
      subst hn
      exact hp i (by assumption)
    · exact ih

lemma assignUpTo_names {p : Inspector → Bool} {amount : ℚ} {k : ℕ} {l : List Inspector}
    {team : List String} (hp : ∀ i, p i = true → i.name ∈ team) :
    ∀ n ∈ (assignUpTo p amount k l).2, n ∈ team := by
  induction l generalizing k with
  | nil => cases k <;> simp [assignUpTo]
  | cons i rest ih =>
    cases k with
    | zero => simp [assignUpTo]
    | succ k =>
      simp only [assignUpTo]
      split
      · intro n hn
        rcases List.mem_cons.mp hn with hn | hn
        · subst hn
          exact hp i (by assumption)
        · exact ih n hn
      · exact ih

lemma assignUpTo_length {p : Inspector → Bool} {amount : ℚ} {k : ℕ} {l : List Inspector} :
    (assignUpTo p amount k l).2.length = min k (l.countP p) := by
  induction l generalizing k with
  | nil => cases k <;> simp [assignUpTo]
  | cons i rest ih =>
    cases k with
    | zero => simp [assignUpTo]
    | succ k =>
      simp only [assignUpTo, List.countP_cons]
      split
      · have hpi : p i = true := by assumption
        simp only [List.length_cons, ih, hpi]
        omega
      · have hpi : ¬ p i = true := by assumption
        simp only [ih, Bool.not_eq_true] at *
        simp [hpi]

lemma shortageFormula_ge_one {task_time avg : ℚ} {required : ℕ} (h : 1 ≤ required) :
    1 ≤ shortageFormula task_time avg required 0 := by
  unfold shortageFormula requiredByVolume
  split
  · simp only [Nat.sub_zero]
    exact le_max_left 1 (⌈task_time / max avg (1 / 10)⌉.toNat)
  · simp [h]

/-- C7: for a new-product task (part code absent from the process master)
the plain assignment draws candidates only from the new-product team; with
an empty team nothing is assigned (count 0, no names), the pool is left
untouched apart from the re-sort, and a positive shortage is recorded —
never a fallback to the general pool. -/
theorem C7_new_product_team_only :
    ∀ (isNewF : String → Bool) (team : List String) (avg : ℚ)
      (st : List Inspector) (t : TaskRow),
      isNewF t.product_code = true → 0 < t.task_time → 1 ≤ t.required →
      ((∀ n ∈ (assignStep isNewF team avg st t).2.assigned_names, n ∈ team) ∧
       (team = [] →
         (assignStep isNewF team avg st t).2.assigned_count = 0 ∧
         (assignStep isNewF team avg st t).2.assigned_names = [] ∧
         (assignStep isNewF team avg st t).1 = sortDesc st ∧
         1 ≤ (assignStep isNewF team avg st t).2.shortage)) := by
  intro isNewF team avg st t hnew ht hreq
  constructor
  · simp only [assignStep, if_pos ht, hnew]
    split_ifs
    · exact assignFirst_names (fun i hi => by
        have := (Bool.and_eq_true _ _).mp hi
        simpa using this.1)
    · simp
    · exact assignUpTo_names (fun i hi => by
        have := (Bool.and_eq_true _ _).mp hi
        simpa using this.2)
    · simp
  · intro hteam
    subst hteam
    have hte : ¬ (([] : List String) ≠ []) := by simp
    simp only [assignStep, if_pos ht, hnew, if_neg hte]
    split_ifs with h1
    · exact ⟨rfl, rfl, rfl, shortageFormula_ge_one hreq⟩
    · exact ⟨rfl, rfl, rfl, shortageFormula_ge_one hreq⟩

/-- Witness for C7: a new-product single-person task with an empty team
assigns nobody, keeps the pool, and reports a shortage, and its assigned
names (vacuously) lie in the team. -/
theorem C7_new_product_team_only_witness :
    (∀ n ∈ (assignStep (fun _ => true) [] 8 [⟨"A", 8⟩] ⟨4, 1, "P"⟩).2.assigned_names,
      n ∈ ([] : List String)) ∧
    ((assignStep (fun _ => true) [] 8 [⟨"A", 8⟩] ⟨4, 1, "P"⟩).2.assigned_count = 0 ∧
     (assignStep (fun _ => true) [] 8 [⟨"A", 8⟩] ⟨4, 1, "P"⟩).2.assigned_names = [] ∧
     (assignStep (fun _ => true) [] 8 [⟨"A", 8⟩] ⟨4, 1, "P"⟩).1 = sortDesc [⟨"A", 8⟩] ∧
     1 ≤ (assignStep (fun _ => true) [] 8 [⟨"A", 8⟩] ⟨4, 1, "P"⟩).2.shortage) := by
  have h := C7_new_product_team_only (fun _ => true) [] 8 [⟨"A", 8⟩] ⟨4, 1, "P"⟩
    rfl (by norm_num) (by norm_num)
  exact ⟨h.1, h.2 rfl⟩

lemma requiredByVolume_80_8 : requiredByVolume 80 8 = 10 := by
  unfold requiredByVolume
  rw [max_eq_left (by norm_num : (1:ℚ) / 10 ≤ 8)]
  have h : ⌈(80:ℚ) / 8⌉ = 10 := by norm_num
  rw [h]
  decide

/-- Counterexample for C4: a multi-person task of 80 hours with required
headcount 2, an 8-hour average shift and two fully available inspectors
assigns both (covering `effective_required = min 2 ⌈80/8⌉ = 2`), yet the
reported shortage is `⌈80/8⌉ − 2 = 8`, not
`effective_required − assigned = 0`: the shortage formula omits the `min`
with the required headcount. -/
theorem C4_counterexample_shortage_formula :
    (assignStep (fun _ => false) [] 8 [⟨"A", 8⟩, ⟨"B", 8⟩] ⟨80, 2, "P"⟩).2.shortage ≠
      min 2 (requiredByVolume 80 8) -
        (assignStep (fun _ => false) [] 8 [⟨"A", 8⟩, ⟨"B", 8⟩] ⟨80, 2, "P"⟩).2.assigned_count := by
  have h1 : (assignStep (fun _ => false) [] 8 [⟨"A", 8⟩, ⟨"B", 8⟩] ⟨80, 2, "P"⟩).2.shortage = 8 := by
    norm_num [assignStep, sortDesc, orderedInsertDesc, assignUpTo, shortageFormula,
      requiredByVolume_80_8]
  have h2 : (assignStep (fun _ => false) [] 8 [⟨"A", 8⟩, ⟨"B", 8⟩]
      ⟨80, 2, "P"⟩).2.assigned_count = 2 := by
    norm_num [assignStep, sortDesc, orderedInsertDesc, assignUpTo, shortageFormula,
      requiredByVolume_80_8]
  rw [h1, h2, requiredByVolume_80_8]
  decide

/-- C4 amended: for a multi-person non-new-product task the engine targets
`effective_required = min(required, max(1, ceil(total / avg)))` inspectors
and assigns `min(effective_required, #eligible)` of them, but the reported
shortage is `max(1, ceil(total / avg)) − assigned` floored at 0 — the
volume bound alone, without the `min` against the required headcount
(`avg` here at least the 0.1-hour floor the code applies). -/
theorem C4_effective_required_and_shortage :
    ∀ (isNewF : String → Bool) (team : List String) (avg : ℚ)
      (st : List Inspector) (t : TaskRow),
      isNewF t.product_code = false → 0 < t.task_time → 1 < t.required → 1 / 10 ≤ avg →
      ((assignStep isNewF team avg st t).2.assigned_count =
        min (min t.required (max 1 ⌈t.task_time / avg⌉.toNat))
          ((sortDesc st).countP (fun i => decide (avg ≤ i.available_time))) ∧
       (assignStep isNewF team avg st t).2.shortage =
        max 1 ⌈t.task_time / avg⌉.toNat -
          (assignStep isNewF team avg st t).2.assigned_count) := by
  intro isNewF team avg st t hnew ht hreq havg
  have hrbv : requiredByVolume t.task_time avg = max 1 ⌈t.task_time / avg⌉.toNat := by
    unfold requiredByVolume
    rw [max_eq_left havg]
  have hne : ¬ t.required = 1 := by omega
  simp only [assignStep, if_pos ht, hnew, Bool.false_eq_true, if_false, if_neg hne]
  constructor
  · simp only [assignUpTo_length, hrbv]
  · simp only [shortageFormula, if_pos hreq, hrbv, assignUpTo_length]

/-- Witness for C4: the 30-hour, 3-person task with two 8-hour inspectors
(the spec's own scenario) has `effective_required = min 3 4 = 3`, assigns
2, and reports shortage `4 − 2 = 2`. -/
theorem C4_effective_required_and_shortage_witness :
    (assignStep (fun _ => false) [] 8 [⟨"A", 8⟩, ⟨"B", 8⟩] ⟨30, 3, "P"⟩).2.assigned_count =
      min (min 3 (max 1 ⌈(30:ℚ) / 8⌉.toNat))
        ((sortDesc [⟨"A", 8⟩, ⟨"B", 8⟩]).countP (fun i => decide ((8:ℚ) ≤ i.available_time))) ∧
    (assignStep (fun _ => false) [] 8 [⟨"A", 8⟩, ⟨"B", 8⟩] ⟨30, 3, "P"⟩).2.shortage =
      max 1 ⌈(30:ℚ) / 8⌉.toNat -
        (assignStep (fun _ => false) [] 8 [⟨"A", 8⟩, ⟨"B", 8⟩] ⟨30, 3, "P"⟩).2.assigned_count :=
  C4_effective_required_and_shortage (fun _ => false) [] 8 [⟨"A", 8⟩, ⟨"B", 8⟩] ⟨30, 3, "P"⟩
    rfl (by norm_num) (by norm_num) (by norm_num)

/-- C10: both assignment methods are frame-preserving on the scheduler
state: they read `scheduled_products`, the masters and the derived lookups,
build a fresh run-local budget list, and write no scheduler field, so the
state after either call equals the state before it and a repeated run
reproduces the same results. -/
theorem C10_assignment_frame :
    ∀ s : SchedulerState,
      (assign_inspectors s).1 = s ∧
      (assign_inspectors_with_skill s).1 = s ∧
      (assign_inspectors ((assign_inspectors s).1)).2 = (assign_inspectors s).2 ∧
      (assign_inspectors_with_skill ((assign_inspectors_with_skill s).1)).2 =
        (assign_inspectors_with_skill s).2 :=
  fun _ => ⟨rfl, rfl, rfl, rfl⟩
